import Mathlib

/-!
Shallow embedding of the dispatch/middleware/scene core of the jsdiscordbot
repository.

Sources embedded here:
- the documented `DiscordBot` class (src/unnamed/part_003): `command`, `hears`,
  `on`, `use`, and the `messageCreate` dispatch loop inside `launch`;
- the documented `Scene` / `SceneManager` (src/unnamed/part_004, second copy,
  the one whose `handle` sets `ctx.handled = true`);
- `MemorySessionStore` / `FileSessionStore` (src/session.js) and the default
  file `sessionStore` (src/unnamed/part_000).

Modelling conventions:
- JS session objects (string-keyed mappings) are association lists over a
  small JSON-like value type `SVal`; `delete` of every key is the empty list.
- JS numbers that the engine stores in `session.step` are modelled as `Nat`
  (the engine only ever writes `0` and successors).
- A regular-expression pattern is modelled by its `test` function, an opaque
  `String → Bool` predicate.
- User handler functions are arbitrary context transformers
  `Ctx → Ctx × Bool`; the boolean is `true` when the handler throws/rejects
  (the returned context is the state the mutable JS `ctx` was left in).
- Scene step functions are user code and return `Ctx × StepRes`;
  `StepRes.retry` corresponds to a JS step returning the explicit `false`
  retry signal, `StepRes.advance` to any other return value, and
  `StepRes.thrown` to the step throwing/rejecting (the context is the state
  the mutable `ctx` was left in).  A thrown step makes `Scene.handle` (and
  so `Scene.enter` and the scene middleware) rethrow, which the
  dispatcher's middleware `try/catch` then forwards to the global error
  handler; middlewares are therefore typed `Ctx → Ctx × Bool`, the boolean
  marking a throw.
- The dispatcher is instrumented with an event log (`Ev`) recording which
  middleware / handler functions were invoked, which errors were forwarded
  to the global error handler (together with the active context, mirroring
  `this.errorHandler(err, ctx)`), and the session-store accesses.
-/

/-- JSON-like session values (src/session.js stores arbitrary structured
state; the claims only need strings, numbers and booleans). -/
inductive SVal where
  | str  (s : String)
  | num  (n : Nat)
  | bool (b : Bool)
deriving DecidableEq, Repr

/-- A session mapping (JS object with string keys), as an association list. -/
abbrev Session := List (String × SVal)

/-- Lookup of a key in an association list (JS property read). -/
def alookup {α : Type} : List (String × α) → String → Option α
  | [], _ => none
  | (k, v) :: rest, key => if k = key then some v else alookup rest key

/-- Update/insert of a key in an association list (JS property write). -/
def aset {α : Type} : List (String × α) → String → α → List (String × α)
  | [], key, v => [(key, v)]
  | (k, w) :: rest, key, v =>
      if k = key then (k, v) :: rest else (k, w) :: aset rest key v

/-- Read a session key: `ctx.session[k]` (absent key reads as undefined). -/
def sget (s : Session) (k : String) : Option SVal := alookup s k

/-- Write a session key: `ctx.session[k] = v`. -/
def sset (s : Session) (k : String) (v : SVal) : Session := aset s k v

/-- Does the string start with the given character?  Models
`content.startsWith('/')` and the like, via the underlying character list
so that it evaluates inside the kernel. -/
def headIs (s : String) (c : Char) : Bool :=
  match s.data with
  | [] => false
  | a :: _ => a == c

/-- `s.slice(1)`: the string minus its first character. -/
def strTail (s : String) : String := String.mk (s.data.drop 1)

/-- Is the string empty (kernel-evaluable form of `s.isEmpty`). -/
def strEmpty (s : String) : Bool := s.data.isEmpty

/-- JS truthiness of `ctx.text` (undefined and the empty string are falsy). -/
def truthyText : Option String → Bool
  | none => false
  | some s => !strEmpty s

/-- JS truthiness of a session value (used for `ctx.session.__scene`). -/
def truthyV : Option SVal → Bool
  | none => false
  | some (.str s) => !strEmpty s
  | some (.num n) => n != 0
  | some (.bool b) => b

/-- Outcome of a scene step: `retry` models a JS step returning the explicit
`false` signal, `advance` models any other return value
(`result !== false` in `Scene.handle`), and `thrown` models the step
throwing or rejecting — in that case `Scene.handle` never reaches its
`ctx.handled = true` line and rethrows. -/
inductive StepRes where
  | retry
  | advance
  | thrown
deriving DecidableEq, Repr

/-- The per-event `Context` (src/context.js constructor plus the fields the
`messageCreate` handler sets).  `sceneRef` models the non-owning `ctx.scene`
reference by the scene's name, breaking the JS object cycle;
`sceneStopped` models `ctx._sceneStopped` (undefined reads as falsy). -/
structure Ctx where
  text : Option String
  sess : Session
  sceneRef : Option String
  handled : Bool
  sceneStopped : Bool
deriving DecidableEq, Repr

/-- A scene definition (src/unnamed/part_004, documented `Scene` class):
a name and an ordered list of step functions.  A step receives the context
and returns the mutated context together with its outcome. -/
structure Scene where
  name : String
  steps : List (Ctx → Ctx × StepRes)

/-- `Scene.leave` (part_004 lines 572-578): delete every key from the
session, clear `ctx.scene`, set `ctx._sceneStopped = true`. -/
def Scene.leave (_sc : Scene) (c : Ctx) : Ctx :=
  { c with sess := [], sceneRef := none, sceneStopped := true }

/-- The current step index read by `Scene.handle`:
`typeof ctx.session.step === 'number' ? ctx.session.step : 0`. -/
def stepIdx (s : Session) : Nat :=
  match sget s "step" with
  | some (.num n) => n
  | _ => 0

/-- `Scene.handle` (part_004 lines 584-598, documented copy): read the
current step index; if it is below the number of steps, run that step —
`const result = await this.steps[step](ctx)` — then set
`ctx.handled = true`, and advance the index by one when the step left
`session.step` unchanged (`ctx.session.step === prevStep`), `ctx.text` is
truthy and the step did not return the explicit `false` retry signal;
otherwise call `leave` and set `ctx.handled = true`.  A throwing step
(there is no try/catch here) aborts `handle` before the
`ctx.handled = true` line: the returned boolean is `true` when `handle`
rethrows, and the context is the state the step left it in. -/
def Scene.handle (sc : Scene) (c : Ctx) : Ctx × Bool :=
  match sc.steps.get? (stepIdx c.sess) with
  | some f =>
      if (f c).2 = StepRes.thrown then ((f c).1, true)
      else if sget (f c).1.sess "step" = some (.num (stepIdx c.sess)) ∧
          truthyText (f c).1.text = true ∧ (f c).2 = StepRes.advance then
        ({ (f c).1 with
           handled := true
           sess := sset (f c).1.sess "step" (.num (stepIdx c.sess + 1)) },
         false)
      else ({ (f c).1 with handled := true }, false)
  | none =>
      ({ sc.leave c with handled := true }, false)

/-- `Scene.enter` (part_004 lines 561-566): set `__scene` to the scene's
name, `step` to `0`, point `ctx.scene` at the scene, then immediately run
`handle` (whose throw, if any, propagates out of `enter`). -/
def Scene.enter (sc : Scene) (c : Ctx) : Ctx × Bool :=
  sc.handle
    { c with
      sess := sset (sset c.sess "__scene" (.str sc.name)) "step" (.num 0),
      sceneRef := some sc.name }

/-- The `SceneManager`'s registry of scenes (`this.scenes`, keyed by name). -/
abbrev SceneManager := List Scene

/-- `SceneManager.register` (overwrites any scene of the same name). -/
def SceneManager.register (m : SceneManager) (sc : Scene) : SceneManager :=
  m.filter (fun s => s.name ≠ sc.name) ++ [sc]

/-- Lookup `this.scenes[sceneName]`. -/
def findScene (m : SceneManager) (n : String) : Option Scene :=
  m.find? (fun sc => sc.name == n)

/-- `SceneManager.middleware()` (part_004 lines 623-634), specialised to the
no-op `next` the dispatcher supplies: if `ctx.session.__scene` is truthy,
names a registered scene and `ctx._sceneStopped` is not set, run that
scene's `handle` — there is no try/catch here, so a throw from `handle`
propagates out of the middleware (boolean `true`); otherwise do nothing
(`next` is a no-op).  Only string-valued `__scene` keys are modelled; the
engine itself only ever stores scene names there. -/
def sceneMiddleware (m : SceneManager) (c : Ctx) : Ctx × Bool :=
  match sget c.sess "__scene" with
  | some (.str n) =>
      if strEmpty n then (c, false)
      else
        match findScene m n with
        | some sc =>
            if c.sceneStopped then (c, false) else sc.handle c
        | none => (c, false)
  | _ => (c, false)

/-- A pattern spec: an exact string or a regular expression, the latter
modelled by its `test` predicate. -/
inductive Pat where
  | str (s : String)
  | rex (t : String → Bool)

/-- One `command(...)`/`hears(...)` registration: the (normalised) pattern
array and the user handler.  The handler's boolean result is `true` when it
throws/rejects; the returned context is the state the mutable `ctx` was
left in at that point. -/
structure Reg where
  pats : List Pat
  fn : Ctx → Ctx × Bool

/-- First space-delimited token: `s.split(' ')[0]` (the characters before
the first space; the whole string when it has no space). -/
def firstTok (s : String) : String :=
  String.mk (s.data.takeWhile (fun c => c != ' '))

/-- `cmd.replace(/^\//, '')`: strip one leading slash (and nothing else). -/
def stripSlash (s : String) : String :=
  if headIs s '/' then strTail s else s

/-- Pattern test inside the closure pushed by `DiscordBot.command`
(part_003 lines 22-27): a string spec matches when the first
space-delimited token of `ctx.text` equals the spec with one leading `/`
stripped; a regex spec matches when its test accepts `ctx.text`. -/
def cmdPatMatch (s : String) : Pat → Bool
  | .str q => firstTok s == stripSlash q
  | .rex t => t s

/-- Pattern test inside the closure pushed by `DiscordBot.hears`
(part_003 lines 100-104): a string spec matches by full equality with
`ctx.text`; a regex spec matches when its test accepts `ctx.text`. -/
def hearsPatMatch (s : String) : Pat → Bool
  | .str q => s == q
  | .rex t => t s

/-- The closure pushed by `DiscordBot.command` (part_003 lines 18-34),
applied to a context.  Result: the new context, whether the user handler
was invoked, and whether it threw.  If `ctx.text` is falsy the closure
returns at once; otherwise the first matching pattern triggers the user
handler, after which `ctx.handled = true` is set — unless the handler
threw, in which case the exception leaves the closure before that
assignment. -/
def cmdWrap (r : Reg) (c : Ctx) : Ctx × Bool × Bool :=
  match c.text with
  | none => (c, false, false)
  | some s =>
      if strEmpty s then (c, false, false)
      else
        match r.pats.find? (cmdPatMatch s) with
        | some _ =>
            let r2 := r.fn c
            if r2.2 then (r2.1, true, true)
            else ({ r2.1 with handled := true }, true, false)
        | none => (c, false, false)

/-- The closure pushed by `DiscordBot.hears` (part_003 lines 96-111);
identical to `cmdWrap` except for the pattern test. -/
def msgWrap (r : Reg) (c : Ctx) : Ctx × Bool × Bool :=
  match c.text with
  | none => (c, false, false)
  | some s =>
      if strEmpty s then (c, false, false)
      else
        match r.pats.find? (hearsPatMatch s) with
        | some _ =>
            let r2 := r.fn c
            if r2.2 then (r2.1, true, true)
            else ({ r2.1 with handled := true }, true, false)
        | none => (c, false, false)

/-- Instrumentation events emitted by the modelled dispatcher. -/
inductive Ev where
  | mwRun (i : Nat)
  | cmdInvoked (i : Nat)
  | msgInvoked (i : Nat)
  | errCaught (c : Ctx)
  | storeGet (id : String)
  | storeSet (id : String)
deriving DecidableEq, Repr

/-- The registries and middleware list of a `DiscordBot` instance
(part_003 constructor): `this.handlers.command`, `this.handlers.message`
and `this.middlewares`.  The dispatcher hands every middleware the no-op
`async () => {}` as `next`, so a middleware's whole effect is its action
on `ctx`; the boolean result marks a middleware that throws/rejects
(caught by the dispatcher's middleware loop). -/
structure DiscordBot where
  cmdRegs : List Reg
  msgRegs : List Reg
  mws : List (Ctx → Ctx × Bool)

/-- The command-handler loop in `messageCreate` (part_003 lines 220-228):
iterate the registered closures, breaking as soon as `ctx.handled` is set;
each closure runs inside `try/catch`, a caught error being forwarded to
the global error handler together with the active context. -/
def runCmdLoop : List Reg → Nat → Ctx → Ctx × List Ev
  | [], _, c => (c, [])
  | r :: rs, i, c =>
      if c.handled then (c, [])
      else
        let w := cmdWrap r c
        let tail := runCmdLoop rs (i + 1) w.1
        (tail.1,
          (if w.2.1 then [Ev.cmdInvoked i] else []) ++
          (if w.2.2 then [Ev.errCaught w.1] else []) ++ tail.2)

/-- The message-handler loop in `messageCreate` (part_003 lines 233-244);
same structure as `runCmdLoop` over the message registry. -/
def runMsgLoop : List Reg → Nat → Ctx → Ctx × List Ev
  | [], _, c => (c, [])
  | r :: rs, i, c =>
      if c.handled then (c, [])
      else
        let w := msgWrap r c
        let tail := runMsgLoop rs (i + 1) w.1
        (tail.1,
          (if w.2.1 then [Ev.msgInvoked i] else []) ++
          (if w.2.2 then [Ev.errCaught w.1] else []) ++ tail.2)

/-- The middleware loop in `messageCreate` (part_003 lines 208-215): every
middleware runs inside `try/catch`, each receiving the no-op `next`; a
caught error is forwarded to the global error handler together with the
active context, and the loop continues with the next middleware. -/
def runMws : List (Ctx → Ctx × Bool) → Nat → Ctx → Ctx × List Ev
  | [], _, c => (c, [])
  | mfn :: ms, i, c =>
      ((runMws ms (i + 1) (mfn c).1).1,
        Ev.mwRun i ::
          ((if (mfn c).2 then [Ev.errCaught (mfn c).1] else []) ++
            (runMws ms (i + 1) (mfn c).1).2))

/-- The fresh context built at the top of `messageCreate`: `ctx.text` is the
raw message content (src/context.js constructor), the loaded session is
attached, `ctx.handled = false`, no scene reference, `_sceneStopped`
undefined (falsy). -/
def initCtx (sess0 : Session) (content : String) : Ctx :=
  { text := some content, sess := sess0, sceneRef := none,
    handled := false, sceneStopped := false }

/-- Command phase of `messageCreate` (part_003 lines 217-229): only when
the raw content starts with `/` or `!` is `ctx.text` replaced by the
content minus its first character and the command registry iterated. -/
def cmdPhase (b : DiscordBot) (content : String) (c : Ctx) : Ctx × List Ev :=
  if headIs content '/' || headIs content '!' then
    runCmdLoop b.cmdRegs 0 { c with text := some (strTail content) }
  else (c, [])

/-- Message phase of `messageCreate` (part_003 lines 231-244): the message
registry is iterated only when the event is not already handled. -/
def msgPhase (b : DiscordBot) (c : Ctx) : Ctx × List Ev :=
  if c.handled then (c, []) else runMsgLoop b.msgRegs 0 c

/-- The body of the `messageCreate` handler after the session has been
loaded (part_003 lines 203-244): build the context, run middlewares, run
the command phase, run the message phase. -/
def dispatchCore (b : DiscordBot) (sess0 : Session) (content : String) :
    Ctx × List Ev :=
  let r1 := runMws b.mws 0 (initCtx sess0 content)
  let r2 := cmdPhase b content r1.1
  let r3 := msgPhase b r2.1
  (r3.1, r1.2 ++ r2.2 ++ r3.2)

/-- The session-store state (the default store of src/unnamed/part_000:
`sessions.json` parsed, a mapping from user id to session). -/
abbrev Store := List (String × Session)

/-- `sessionStore.get(id)` (part_000 lines 32-35): `sessions[id] || {}`. -/
def storeGetSess (st : Store) (i : String) : Session :=
  (alookup st i).getD []

/-- A normalised inbound message event: its raw content, whether the author
is a bot (`message.author.bot`), and the author id used as session key
(`message.author.id`). -/
structure Msg where
  content : String
  authorBot : Bool
  authorId : String
deriving DecidableEq, Repr

/-- The full `messageCreate` handler (part_003 lines 200-252): return
immediately for bot authors; otherwise load the session, run
`dispatchCore`, and persist the session — except that an event that ended
unhandled, with no active scene and truthy `ctx.text`, returns before the
`sessionStore.set` call (the "default reply" early return at lines
247-249). -/
def dispatch (b : DiscordBot) (st : Store) (m : Msg) : Store × List Ev :=
  if m.authorBot then (st, [])
  else
    let r := dispatchCore b (storeGetSess st m.authorId) m.content
    if r.1.handled = false ∧ truthyV (sget r.1.sess "__scene") = false ∧
        truthyText r.1.text = true then
      (st, Ev.storeGet m.authorId :: r.2)
    else
      (aset st m.authorId r.1.sess,
        (Ev.storeGet m.authorId :: r.2) ++ [Ev.storeSet m.authorId])

/-- The state of a `MemorySessionStore` (src/session.js lines 8-40):
`this.sessions`, a mapping from user id to session. -/
abbrev MemorySessionStore := List (String × Session)

/-- `MemorySessionStore.get(id)` (src/session.js lines 20-22):
`this.sessions[id] || {}`. -/
def MemorySessionStore.get (st : MemorySessionStore) (i : String) : Session :=
  (alookup st i).getD []

/-- `MemorySessionStore.set(id, session)` (src/session.js lines 29-31):
`this.sessions[id] = session`. -/
def MemorySessionStore.set (st : MemorySessionStore) (i : String)
    (s : Session) : MemorySessionStore :=
  aset st i s

/-- The parsed contents of a `FileSessionStore`'s JSON file
(src/session.js lines 46-91).  JSON stringify/parse round-trips every
mapping over the modelled value type, so the file is represented by the
mapping it encodes. -/
abbrev FileSessionStore := List (String × Session)

/-- `_read()` (src/session.js lines 55-57): parse the file's contents. -/
def FileSessionStore.read (fs : FileSessionStore) : List (String × Session) :=
  fs

/-- `_write(sessions)` (src/session.js lines 58-60): serialise and replace
the file's contents. -/
def FileSessionStore.write (_fs : FileSessionStore)
    (m : List (String × Session)) : FileSessionStore :=
  m

/-- `FileSessionStore.get(id)` (src/session.js lines 66-69):
read the file, then `sessions[id] || {}`. -/
def FileSessionStore.get (fs : FileSessionStore) (i : String) : Session :=
  (alookup (FileSessionStore.read fs) i).getD []

/-- `FileSessionStore.set(id, session)` (src/session.js lines 76-80):
read the file, update the entry, write the file back. -/
def FileSessionStore.set (fs : FileSessionStore) (i : String) (s : Session) :
    FileSessionStore :=
  FileSessionStore.write fs (aset (FileSessionStore.read fs) i s)

/-! Helper lemmas about the association-list operations and the dispatch
loops, shared by several of the claim theorems below. -/

theorem alookup_aset_self {α : Type} (l : List (String × α)) (k : String)
    (v : α) : alookup (aset l k v) k = some v := by
  induction l with
  | nil => simp [aset, alookup]
  | cons hd tl ih =>
      obtain ⟨k1, v1⟩ := hd
      by_cases hk : k1 = k
      · simp [aset, alookup, hk]
      · simp [aset, alookup, hk, ih]

theorem alookup_aset_ne {α : Type} (l : List (String × α)) (k k' : String)
    (v : α) (h : k' ≠ k) : alookup (aset l k v) k' = alookup l k' := by
  induction l with
  | nil =>
      have hne : ¬ k = k' := fun hh => h hh.symm
      simp [aset, alookup, hne]
  | cons hd tl ih =>
      obtain ⟨k1, v1⟩ := hd
      by_cases hk : k1 = k
      · subst hk
        have hne : ¬ k1 = k' := fun hh => h hh.symm
        simp [aset, alookup, hne]
      · simp [aset, alookup, hk, ih]

theorem sget_sset_self (s : Session) (k : String) (v : SVal) :
    sget (sset s k v) k = some v :=
  alookup_aset_self s k v

theorem sget_sset_ne (s : Session) (k k' : String) (v : SVal) (h : k' ≠ k) :
    sget (sset s k v) k' = sget s k' :=
  alookup_aset_ne s k k' v h

/-- Once `ctx.handled` is set, the command loop invokes nothing further
(the `if (ctx.handled) break` check). -/
theorem runCmdLoop_handled (rs : List Reg) (i : Nat) (c : Ctx)
    (h : c.handled = true) : runCmdLoop rs i c = (c, []) := by
  cases rs with
  | nil => rfl
  | cons r rest => simp [runCmdLoop, h]

/-- Once `ctx.handled` is set, the message loop invokes nothing further
(the `if (ctx.handled) break` check). -/
theorem runMsgLoop_handled (rs : List Reg) (i : Nat) (c : Ctx)
    (h : c.handled = true) : runMsgLoop rs i c = (c, []) := by
  cases rs with
  | nil => rfl
  | cons r rest => simp [runMsgLoop, h]


/-- The message loop never emits a command-invocation event. -/
theorem runMsgLoop_no_cmdInvoked (rs : List Reg) (i j : Nat) (c : Ctx) :
    Ev.cmdInvoked j ∉ (runMsgLoop rs i c).2 := by
  induction rs generalizing i c with
  | nil => simp [runMsgLoop]
  | cons r rest ih =>
      by_cases h : c.handled
      · simp [runMsgLoop, h]
      · simp only [runMsgLoop, h, if_neg, Bool.not_eq_true]
        simp only [List.mem_append, not_or]
        refine ⟨⟨?_, ?_⟩, ?_⟩
        · cases hw : (msgWrap r c).2.1 <;> simp
        · cases hw : (msgWrap r c).2.2 <;> simp
        · exact ih _ _

/-- When `Scene.handle` completes without a step throwing, it has marked
the context handled, in both its branches; a throwing step skips the
`ctx.handled = true` line. -/
theorem Scene.handle_handled (sc : Scene) (c : Ctx)
    (h : (sc.handle c).2 = false) : (sc.handle c).1.handled = true := by
  unfold Scene.handle at h ⊢
  cases hg : sc.steps.get? (stepIdx c.sess) with
  | some f =>
      simp only [hg] at h ⊢
      by_cases hth : (f c).2 = StepRes.thrown
      · rw [if_pos hth] at h
        exact absurd h (by simp)
      · rw [if_neg hth] at h ⊢
        split <;> rfl
  | none =>
      simp only [hg]

/-- C7: for every `Context`, `Scene.leave` results in an empty session
mapping (every key deleted, including `__scene` and `step`) and a null
scene reference, regardless of the prior step value, scene name, or other
session contents. -/
theorem c7_leave_resets (sc : Scene) (c : Ctx) :
    (Scene.leave sc c).sess = [] ∧ (Scene.leave sc c).sceneRef = none :=
  ⟨rfl, rfl⟩

/-- C9: session-store round trip for `MemorySessionStore` and
`FileSessionStore`: after `set(id, M)`, a `get(id)` returns `M`, both
immediately and after an intervening `set` for a different id. -/
theorem c9_roundtrip (stM : MemorySessionStore) (stF : FileSessionStore)
    (i j : String) (M M' : Session) (hij : j ≠ i) :
    MemorySessionStore.get (MemorySessionStore.set stM i M) i = M ∧
    FileSessionStore.get (FileSessionStore.set stF i M) i = M ∧
    MemorySessionStore.get
      (MemorySessionStore.set (MemorySessionStore.set stM i M) j M') i = M ∧
    FileSessionStore.get
      (FileSessionStore.set (FileSessionStore.set stF i M) j M') i = M := by
  refine ⟨?_, ?_, ?_, ?_⟩
  · simp [MemorySessionStore.get, MemorySessionStore.set, alookup_aset_self]
  · simp [FileSessionStore.get, FileSessionStore.set, FileSessionStore.read,
      FileSessionStore.write, alookup_aset_self]
  · simp [MemorySessionStore.get, MemorySessionStore.set,
      alookup_aset_ne _ _ _ _ (Ne.symm hij), alookup_aset_self]
  · simp [FileSessionStore.get, FileSessionStore.set, FileSessionStore.read,
      FileSessionStore.write, alookup_aset_ne _ _ _ _ (Ne.symm hij),
      alookup_aset_self]

/-- Witness for C9 at concrete inputs. -/
theorem c9_roundtrip_witness :
    MemorySessionStore.get
      (MemorySessionStore.set [] "u" [("k", SVal.num 1)]) "u"
        = [("k", SVal.num 1)] ∧
    FileSessionStore.get
      (FileSessionStore.set [] "u" [("k", SVal.num 1)]) "u"
        = [("k", SVal.num 1)] ∧
    MemorySessionStore.get
      (MemorySessionStore.set
        (MemorySessionStore.set [] "u" [("k", SVal.num 1)]) "v" []) "u"
        = [("k", SVal.num 1)] ∧
    FileSessionStore.get
      (FileSessionStore.set
        (FileSessionStore.set [] "u" [("k", SVal.num 1)]) "v" []) "u"
        = [("k", SVal.num 1)] :=
  c9_roundtrip [] [] "u" "v" [("k", SVal.num 1)] [] (by decide)

/-- C10: for a message event whose author is a bot, `dispatch` returns at
once: no middleware runs, no handler is invoked, the session store is
neither read nor written, and the store state is unchanged. -/
theorem c10_bot_author_guard (b : DiscordBot) (st : Store) (m : Msg)
    (h : m.authorBot = true) : dispatch b st m = (st, []) := by
  simp [dispatch, h]

/-- Witness for C10 at concrete inputs. -/
theorem c10_bot_author_guard_witness :
    dispatch ⟨[], [], []⟩ [("u", [("k", SVal.num 1)])] ⟨"hi", true, "u"⟩
      = ([("u", [("k", SVal.num 1)])], []) :=
  c10_bot_author_guard ⟨[], [], []⟩ [("u", [("k", SVal.num 1)])]
    ⟨"hi", true, "u"⟩ rfl

/-- The middleware loop only emits middleware-run and forwarded-error
events — in particular, never a command-invocation event. -/
theorem runMws_no_cmdInvoked (ms : List (Ctx → Ctx × Bool)) (i j : Nat)
    (c : Ctx) : Ev.cmdInvoked j ∉ (runMws ms i c).2 := by
  induction ms generalizing i c with
  | nil => simp [runMws]
  | cons mfn rest ih =>
      intro h
      simp only [runMws, List.mem_cons, List.mem_append] at h
      rcases h with h | h | h
      · exact Ev.noConfusion h
      · split at h <;> simp at h
      · exact ih _ _ h

/-- The message phase never emits a command-invocation event. -/
theorem msgPhase_no_cmdInvoked (b : DiscordBot) (c : Ctx) (j : Nat) :
    Ev.cmdInvoked j ∉ (msgPhase b c).2 := by
  unfold msgPhase
  split
  · simp
  · exact runMsgLoop_no_cmdInvoked _ _ _ _

/-- When the content has neither command prefix, the command phase does
nothing. -/
theorem cmdPhase_no_pref (b : DiscordBot) (content : String) (c : Ctx)
    (hp1 : headIs content '/' = false) (hp2 : headIs content '!' = false) :
    cmdPhase b content c = (c, []) := by
  simp [cmdPhase, hp1, hp2]

/-- Without a command prefix, `dispatchCore` emits no command-invocation
event. -/
theorem dispatchCore_no_cmd (b : DiscordBot) (s0 : Session) (content : String)
    (hp1 : headIs content '/' = false) (hp2 : headIs content '!' = false)
    (i : Nat) : Ev.cmdInvoked i ∉ (dispatchCore b s0 content).2 := by
  intro h
  simp only [dispatchCore, cmdPhase_no_pref b content _ hp1 hp2,
    List.append_nil, List.mem_append] at h
  rcases h with h | h
  · exact runMws_no_cmdInvoked _ _ _ _ h
  · exact msgPhase_no_cmdInvoked _ _ _ h

/-- The bot used by the C1 counterexample: no command registrations, one
`hears("hi", ...)` registration, no middleware. -/
def botHearsHi : DiscordBot := ⟨[], [⟨[Pat.str "hi"], fun c => (c, false)⟩], []⟩

/-- C1 counterexample: the inbound text event `"!hi"` begins with `!`, yet
the hears/message-registry handler IS invoked for it — the dispatcher
falls through to the message registry whenever no command handler marked
the event handled, so the claimed mutual exclusivity fails. -/
theorem c1_counterexample :
    headIs "!hi" '!' = true ∧
    Ev.msgInvoked 0 ∈ (dispatch botHearsHi [] ⟨"!hi", false, "u"⟩).2 := by
  decide

/-- C1 (amended): a text event beginning with neither `/` nor `!` never
reaches the command registry; and for a prefixed event, the message
registry is consulted only while the event is unhandled — once
`ctx.handled` is set (in particular by a matching command handler), the
message loop invokes nothing. -/
theorem c1_amended (b : DiscordBot) (st : Store) (m : Msg)
    (hp1 : headIs m.content '/' = false)
    (hp2 : headIs m.content '!' = false) :
    (∀ i, Ev.cmdInvoked i ∉ (dispatch b st m).2) ∧
    (∀ rs i c, c.handled = true → runMsgLoop rs i c = (c, [])) := by
  constructor
  · intro i
    by_cases hb : m.authorBot = true
    · simp [dispatch, hb]
    · have hcore := dispatchCore_no_cmd b (storeGetSess st m.authorId)
        m.content hp1 hp2 i
      unfold dispatch
      rw [if_neg hb]
      dsimp only
      split
      · simp [List.mem_cons, hcore]
      · simp [List.mem_cons, List.mem_append, hcore]
  · exact fun rs i c h => runMsgLoop_handled rs i c h

/-- The bot used by the C1 witness: one command registration whose string
spec would match the token of an unprefixed message. -/
def botCmdHello : DiscordBot :=
  ⟨[⟨[Pat.str "hello"], fun c => (c, false)⟩], [], []⟩

/-- Witness for C1 (amended) at concrete inputs: the unprefixed message
`"hello"` never invokes the registered command handler. -/
theorem c1_amended_witness :
    Ev.cmdInvoked 0 ∉ (dispatch botCmdHello [] ⟨"hello", false, "u"⟩).2 :=
  (c1_amended botCmdHello [] ⟨"hello", false, "u"⟩ (by decide) (by decide)).1 0

/-- C2: first-match-wins within the command and hears registries.  For a
registration A (patterns `pA`, non-throwing handler `fA`) sitting at
position `i` of the registry with the event not yet handled, if A's spec
matches the event text then only A's handler is invoked, `ctx.handled` is
true immediately after it returns, and every later entry (`rest`, which
may contain a registration B whose spec also matches) is skipped: the loop
result is exactly A's effect plus the single invocation event. -/
theorem c2_first_match_wins (pA : List Pat) (fA : Ctx → Ctx × Bool)
    (rest : List Reg) (i : Nat) (c : Ctx) (s : String)
    (hh : c.handled = false) (ht : c.text = some s)
    (hs : strEmpty s = false) (hnothrow : (fA c).2 = false) :
    ((pA.find? (cmdPatMatch s)).isSome = true →
      runCmdLoop (⟨pA, fA⟩ :: rest) i c
        = ({ (fA c).1 with handled := true }, [Ev.cmdInvoked i])) ∧
    ((pA.find? (hearsPatMatch s)).isSome = true →
      runMsgLoop (⟨pA, fA⟩ :: rest) i c
        = ({ (fA c).1 with handled := true }, [Ev.msgInvoked i])) := by
  constructor
  · intro hfind
    obtain ⟨p, hp⟩ := Option.isSome_iff_exists.mp hfind
    simp [runCmdLoop, hh, cmdWrap, ht, hs, hp, hnothrow,
      runCmdLoop_handled]
  · intro hfind
    obtain ⟨p, hp⟩ := Option.isSome_iff_exists.mp hfind
    simp [runMsgLoop, hh, msgWrap, ht, hs, hp, hnothrow,
      runMsgLoop_handled]

/-- Context used by the C2 witness. -/
def ctxHi : Ctx := ⟨some "hi", [], none, false, false⟩

/-- Registration B for the C2 witness: its spec also matches `"hi"`. -/
def regHiB : Reg := ⟨[Pat.str "hi"], fun c => (c, false)⟩

/-- Witness for C2 at concrete inputs: two registrations both matching
`"hi"`; only the first one's handler runs, in both registries. -/
theorem c2_first_match_wins_witness :
    runCmdLoop [⟨[Pat.str "hi"], fun c => (c, false)⟩, regHiB] 0 ctxHi
      = ({ ctxHi with handled := true }, [Ev.cmdInvoked 0]) ∧
    runMsgLoop [⟨[Pat.str "hi"], fun c => (c, false)⟩, regHiB] 0 ctxHi
      = ({ ctxHi with handled := true }, [Ev.msgInvoked 0]) :=
  ⟨(c2_first_match_wins [Pat.str "hi"] (fun c => (c, false)) [regHiB] 0
      ctxHi "hi" rfl rfl rfl rfl).1 (by decide),
   (c2_first_match_wins [Pat.str "hi"] (fun c => (c, false)) [regHiB] 0
      ctxHi "hi" rfl rfl rfl rfl).2 (by decide)⟩

/-- The bot used by the C3 counterexample: two command registrations both
matching `"x"`; the first one's handler throws. -/
def botThrowX : DiscordBot :=
  ⟨[⟨[Pat.str "x"], fun c => (c, true)⟩,
    ⟨[Pat.str "x"], fun c => (c, false)⟩], [], []⟩

/-- C3 counterexample: on the event `"/x"` the first handler throws; the
error is caught and forwarded to the global error handler with the active
context, but iteration does NOT stop — the second registration's handler
is still invoked (the throwing wrapper never reaches its
`ctx.handled = true` line, so the loop's break check does not fire),
refuting the claim that iteration over remaining entries stops. -/
theorem c3_counterexample :
    Ev.errCaught ⟨some "x", [], none, false, false⟩
        ∈ (dispatch botThrowX [] ⟨"/x", false, "u"⟩).2 ∧
    Ev.cmdInvoked 1 ∈ (dispatch botThrowX [] ⟨"/x", false, "u"⟩).2 := by
  decide

/-- C3 (amended): a throwing command or hears handler's error is caught
and forwarded to the global error handler together with the active
context, but iteration over the remaining registered entries CONTINUES —
the dispatcher does not mark the event handled for a throwing handler, so
later entries still run (they would stop only if the handler itself set
`ctx.handled` before throwing). -/
theorem c3_amended (pA : List Pat) (fA : Ctx → Ctx × Bool)
    (rest : List Reg) (i : Nat) (c : Ctx) (s : String)
    (hh : c.handled = false) (ht : c.text = some s)
    (hs : strEmpty s = false) (hthrow : (fA c).2 = true) :
    ((pA.find? (cmdPatMatch s)).isSome = true →
      runCmdLoop (⟨pA, fA⟩ :: rest) i c
        = ((runCmdLoop rest (i + 1) (fA c).1).1,
           Ev.cmdInvoked i :: Ev.errCaught (fA c).1 ::
             (runCmdLoop rest (i + 1) (fA c).1).2)) ∧
    ((pA.find? (hearsPatMatch s)).isSome = true →
      runMsgLoop (⟨pA, fA⟩ :: rest) i c
        = ((runMsgLoop rest (i + 1) (fA c).1).1,
           Ev.msgInvoked i :: Ev.errCaught (fA c).1 ::
             (runMsgLoop rest (i + 1) (fA c).1).2)) := by
  constructor
  · intro hfind
    obtain ⟨p, hp⟩ := Option.isSome_iff_exists.mp hfind
    simp [runCmdLoop, hh, cmdWrap, ht, hs, hp, hthrow]
  · intro hfind
    obtain ⟨p, hp⟩ := Option.isSome_iff_exists.mp hfind
    simp [runMsgLoop, hh, msgWrap, ht, hs, hp, hthrow]

/-- Context used by the C3 witness. -/
def ctxX : Ctx := ⟨some "x", [], none, false, false⟩

/-- Witness for C3 (amended) at concrete inputs: a throwing handler at
position 0 with an empty remainder yields exactly the invocation and the
forwarded error, in both registries. -/
theorem c3_amended_witness :
    runCmdLoop [⟨[Pat.str "x"], fun c => (c, true)⟩] 0 ctxX
      = (ctxX, [Ev.cmdInvoked 0, Ev.errCaught ctxX]) ∧
    runMsgLoop [⟨[Pat.str "x"], fun c => (c, true)⟩] 0 ctxX
      = (ctxX, [Ev.msgInvoked 0, Ev.errCaught ctxX]) :=
  ⟨(c3_amended [Pat.str "x"] (fun c => (c, true)) [] 0 ctxX "x"
      rfl rfl rfl rfl).1 (by decide),
   (c3_amended [Pat.str "x"] (fun c => (c, true)) [] 0 ctxX "x"
      rfl rfl rfl rfl).2 (by decide)⟩

/-- The matching rule exactly as claim C4 states it (refinement-comparison
definition, written from the claim's words, not from the code): the first
whitespace-delimited token of the (already prefix-stripped) input equals
the spec after a leading `/` or `!` has been stripped from the spec. -/
def claimCmdMatch (input spec : String) : Bool :=
  firstTok input
    == (if headIs spec '/' || headIs spec '!' then strTail spec else spec)

/-- The bot used by the C4 counterexample: one command registration with
the exact string spec `"!echo"`. -/
def botBangEcho : DiscordBot :=
  ⟨[⟨[Pat.str "!echo"], fun c => (c, false)⟩], [], []⟩

/-- C4 counterexample: for the command-classified event `"!echo"` (token
after stripping: `"echo"`) and the exact spec `"!echo"`, the claim's rule
says the handler matches (`"echo" = "echo"` after stripping `!` from the
spec), but the code strips only a leading `/` from the spec
(`cmd.replace(/^\//, '')`), compares `"echo"` with `"!echo"`, and never
invokes the handler. -/
theorem c4_counterexample :
    claimCmdMatch "echo" "!echo" = true ∧
    Ev.cmdInvoked 0 ∉ (dispatch botBangEcho [] ⟨"!echo", false, "u"⟩).2 := by
  decide

/-- C4 (amended): for a command registration with an exact string spec and
a text event classified as a command, the handler is invoked iff the first
space-delimited token of the input (after the classification stripped the
single leading `/` or `!` from the input) equals the spec with only a
leading `/` stripped from the spec — a leading `!` on the spec is NOT
stripped.  The second conjunct records that the command phase is what
hands the registry the prefix-stripped input. -/
theorem c4_amended (spec : String) (f : Ctx → Ctx × Bool) (c : Ctx)
    (s : String) (ht : c.text = some s) (hs : strEmpty s = false) :
    ((cmdWrap ⟨[Pat.str spec], f⟩ c).2.1 = true
      ↔ (firstTok s == stripSlash spec) = true) ∧
    (∀ (b : DiscordBot) (content : String),
      (headIs content '/' || headIs content '!') = true →
      cmdPhase b content c
        = runCmdLoop b.cmdRegs 0 { c with text := some (strTail content) }) := by
  constructor
  · unfold cmdWrap
    rw [ht]
    simp only [hs, Bool.false_eq_true, if_false]
    by_cases hm : cmdPatMatch s (Pat.str spec) = true
    · simp only [List.find?, hm]
      constructor
      · intro _
        exact hm
      · intro _
        by_cases hth : (f c).2 = true <;> simp [hth]
    · simp only [List.find?, Bool.not_eq_true] at hm ⊢
      simp [hm]
      intro hcontr
      rw [cmdPatMatch] at hm
      exact absurd hcontr (by simpa using hm)
  · intro b content hpref
    simp [cmdPhase, hpref]

/-- Context used by the C4 witness. -/
def ctxStart : Ctx := ⟨some "start now", [], none, false, false⟩

/-- Witness for C4 (amended) at concrete inputs: spec `"/start"`, stripped
input `"start now"` — the token `"start"` equals the spec minus its
leading `/`, so the handler is invoked. -/
theorem c4_amended_witness :
    (cmdWrap ⟨[Pat.str "/start"], fun c => (c, false)⟩ ctxStart).2.1 = true :=
  ((c4_amended "/start" (fun c => (c, false)) ctxStart "start now"
      rfl rfl).1).mpr (by decide)

/-- With `ctx.handled` already set, the command phase emits no events and
leaves the flag set (the registry loop breaks before invoking anything). -/
theorem cmdPhase_handled (b : DiscordBot) (content : String) (c : Ctx)
    (h : c.handled = true) :
    (cmdPhase b content c).2 = [] ∧ (cmdPhase b content c).1.handled = true := by
  unfold cmdPhase
  split
  · rw [runCmdLoop_handled b.cmdRegs 0
      { c with text := some (strTail content) } h]
    exact ⟨rfl, h⟩
  · exact ⟨rfl, h⟩

/-- With `ctx.handled` already set, the message phase does nothing. -/
theorem msgPhase_handled (b : DiscordBot) (c : Ctx) (h : c.handled = true) :
    msgPhase b c = (c, []) := by
  unfold msgPhase
  rw [if_pos h]

/-- A single middleware that completes without throwing and marks the
event handled makes `dispatchCore` skip both registries: the only event
is the middleware run, and the final context is handled. -/
theorem dispatchCore_mw_handled (cmdRegs msgRegs : List Reg)
    (mw : Ctx → Ctx × Bool) (s0 : Session) (content : String)
    (hnothrow : (mw (initCtx s0 content)).2 = false)
    (hhandled : (mw (initCtx s0 content)).1.handled = true) :
    (dispatchCore ⟨cmdRegs, msgRegs, [mw]⟩ s0 content).2 = [Ev.mwRun 0] ∧
    (dispatchCore ⟨cmdRegs, msgRegs, [mw]⟩ s0 content).1.handled = true := by
  have h1 : runMws [mw] 0 (initCtx s0 content)
      = ((mw (initCtx s0 content)).1, [Ev.mwRun 0]) := by
    simp [runMws, hnothrow]
  obtain ⟨h2a, h2b⟩ := cmdPhase_handled ⟨cmdRegs, msgRegs, [mw]⟩ content
    ((mw (initCtx s0 content)).1) hhandled
  have h3 := msgPhase_handled ⟨cmdRegs, msgRegs, [mw]⟩
    ((cmdPhase ⟨cmdRegs, msgRegs, [mw]⟩ content
      ((mw (initCtx s0 content)).1)).1) h2b
  unfold dispatchCore
  dsimp only
  rw [h1]
  dsimp only
  rw [h3]
  dsimp only
  exact ⟨by rw [h2a]; simp, h2b⟩

/-- Scene used by the C5 counterexample: its only step throws. -/
def scBoom : Scene := ⟨"boom", [fun c => (c, StepRes.thrown)]⟩

/-- Session of the C5 counterexample: the `"boom"` scene active at step
0. -/
def sessBoom : Session :=
  [("__scene", SVal.str "boom"), ("step", SVal.num 0)]

/-- Hears registration of the C5 counterexample, matching `"hello"`. -/
def regHelloB : Reg := ⟨[Pat.str "hello"], fun c => (c, false)⟩

/-- C5 counterexample: the loaded session names the registered scene
`"boom"` and the fresh context carries no scene-stopped flag, so the
scene engine runs `handle` — but the dispatched step throws, `handle`
aborts before its `ctx.handled = true` line, the dispatcher's middleware
catch swallows the error, and the matching hears handler IS invoked for
the event, refuting the claim that no pattern handler runs. -/
theorem c5_counterexample :
    sget sessBoom "__scene" = some (SVal.str "boom") ∧
    findScene [scBoom] "boom" = some scBoom ∧
    Ev.msgInvoked 0 ∈ (dispatch ⟨[], [regHelloB], [sceneMiddleware [scBoom]]⟩
        [("u", sessBoom)] ⟨"hello", false, "u"⟩).2 :=
  ⟨by decide, rfl, by decide⟩

/-- C5 (amended): scene priority holds when the dispatched scene step
returns normally.  For an inbound message event (non-bot author) whose
loaded session names a registered scene (truthy `__scene`) — the fresh
per-event context never carries the scene-stopped flag — the scene
middleware runs that scene's `handle` (first conjunct); provided that
`handle` run does not throw, the whole dispatch emits only the store
read, the middleware run and the store write: no command-registry or
hears-registry handler is invoked, regardless of what specs
`cmdRegs`/`msgRegs` contain (second conjunct).  When the step throws,
`ctx.handled` stays false and the registries are still consulted (see
the counterexample). -/
theorem c5_scene_priority (scs : SceneManager) (sc : Scene)
    (cmdRegs msgRegs : List Reg) (st : Store) (m : Msg) (n : String)
    (hbot : m.authorBot = false)
    (hscene : sget (storeGetSess st m.authorId) "__scene"
      = some (SVal.str n))
    (hn : strEmpty n = false)
    (hfind : findScene scs n = some sc)
    (hnothrow : (Scene.handle sc
      (initCtx (storeGetSess st m.authorId) m.content)).2 = false) :
    sceneMiddleware scs (initCtx (storeGetSess st m.authorId) m.content)
      = Scene.handle sc (initCtx (storeGetSess st m.authorId) m.content) ∧
    (dispatch ⟨cmdRegs, msgRegs, [sceneMiddleware scs]⟩ st m).2
      = [Ev.storeGet m.authorId, Ev.mwRun 0, Ev.storeSet m.authorId] := by
  have hmw : sceneMiddleware scs
      (initCtx (storeGetSess st m.authorId) m.content)
      = Scene.handle sc (initCtx (storeGetSess st m.authorId) m.content) := by
    unfold sceneMiddleware
    have hs0 : sget (initCtx (storeGetSess st m.authorId) m.content).sess
        "__scene" = some (SVal.str n) := hscene
    simp only [hs0, hn, Bool.false_eq_true, if_false, hfind]
    rfl
  refine ⟨hmw, ?_⟩
  have hnothrowMw : (sceneMiddleware scs
      (initCtx (storeGetSess st m.authorId) m.content)).2 = false := by
    rw [hmw]
    exact hnothrow
  have hhandled : (sceneMiddleware scs
      (initCtx (storeGetSess st m.authorId) m.content)).1.handled = true := by
    rw [hmw]
    exact Scene.handle_handled sc _ hnothrow
  obtain ⟨hcore2, hcore1⟩ := dispatchCore_mw_handled cmdRegs msgRegs
    (sceneMiddleware scs) (storeGetSess st m.authorId) m.content
    hnothrowMw hhandled
  unfold dispatch
  rw [if_neg (by simp [hbot])]
  dsimp only
  rw [if_neg (by rw [hcore1]; simp)]
  rw [hcore2]
  rfl

/-- Scene used by the C5 witness: its only step returns normally. -/
def scReg : Scene := ⟨"reg", [fun c => (c, StepRes.advance)]⟩

/-- Session used by the C5 witness: an active `"reg"` scene at step 0. -/
def sessReg : Session := [("__scene", SVal.str "reg"), ("step", SVal.num 0)]

/-- Registration whose spec matches the witness message `"hello"`. -/
def regHello : Reg := ⟨[Pat.str "hello"], fun c => (c, false)⟩

/-- Witness for C5 (amended) at concrete inputs: both registries contain
a spec matching the message `"hello"`, the active scene's step returns
normally, and the dispatch log shows no handler invocation. -/
theorem c5_scene_priority_witness :
    (dispatch ⟨[regHello], [regHello], [sceneMiddleware [scReg]]⟩
        [("u", sessReg)] ⟨"hello", false, "u"⟩).2
      = [Ev.storeGet "u", Ev.mwRun 0, Ev.storeSet "u"] :=
  (c5_scene_priority [scReg] scReg [regHello] [regHello]
    [("u", sessReg)] ⟨"hello", false, "u"⟩ "reg" rfl (by decide) (by decide)
    (by simp [findScene, scReg]) (by decide)).2

/-- `Scene.handle` on a scene whose current (0th) step is a pure prompt
step — it returns the context unchanged with outcome `res0` — reduces to
the throw test and then the advance test. -/
theorem handle_pure_first (name : String) (res0 : StepRes)
    (rest : List (Ctx → Ctx × StepRes)) (c : Ctx)
    (hstep : sget c.sess "step" = some (SVal.num 0)) :
    Scene.handle ⟨name, (fun c2 => (c2, res0)) :: rest⟩ c
      = if res0 = StepRes.thrown then (c, true)
        else if truthyText c.text = true ∧ res0 = StepRes.advance then
          ({ c with handled := true, sess := sset c.sess "step" (.num 1) },
           false)
        else ({ c with handled := true }, false) := by
  have hidx : stepIdx c.sess = 0 := by
    unfold stepIdx
    rw [hstep]
  unfold Scene.handle
  rw [hidx]
  dsimp only [List.get?]
  by_cases hth : res0 = StepRes.thrown
  · rw [if_pos hth, if_pos hth]
  · rw [if_neg hth, if_neg hth]
    by_cases hcond : truthyText c.text = true ∧ res0 = StepRes.advance
    · rw [if_pos ⟨hstep, hcond.1, hcond.2⟩, if_pos hcond]
    · rw [if_neg (fun h => hcond ⟨h.2.1, h.2.2⟩), if_neg hcond]

/-- `Scene.enter` from a context without truthy text, on a scene whose
first step is a pure prompt step, leaves the session at
`__scene = name, step = 0`: the synchronous first-step run does not
advance (whether the step returns or throws). -/
theorem enter_pure_first (name : String) (res0 : StepRes)
    (rest : List (Ctx → Ctx × StepRes)) (cE : Ctx)
    (hE : truthyText cE.text = false) :
    (Scene.enter ⟨name, (fun c2 => (c2, res0)) :: rest⟩ cE).1.sess
      = sset (sset cE.sess "__scene" (.str name)) "step" (.num 0) := by
  unfold Scene.enter
  rw [handle_pure_first name res0 rest _ (sget_sset_self _ _ _)]
  by_cases hth : res0 = StepRes.thrown
  · rw [if_pos hth]
  · rw [if_neg hth, if_neg (fun h => by
      have hh : truthyText cE.text = true := h.1
      simp [hE] at hh)]

/-- Two-step scene used by the C6 counterexample; both steps are pure
prompts that signal advance. -/
def scTwoAdv : Scene :=
  ⟨"w", [fun c => (c, StepRes.advance), fun c => (c, StepRes.advance)]⟩

/-- Entry context of the C6 counterexample: it carries the (non-empty)
text of the event that triggered entry, e.g. a `hears('go')` handler
calling `enter`. -/
def ctxGo : Ctx := ⟨some "go", [], none, false, false⟩

/-- The one qualifying feed of the C6 counterexample: a fresh event with
non-empty text and the session left by the entry. -/
def ctxFeed : Ctx := ⟨some "Alice", (scTwoAdv.enter ctxGo).1.sess, none,
  false, false⟩

/-- C6 counterexample: entering a `[s0, s1]` scene from an event that
itself carries non-empty text already advances `step` to 1 during
`enter` (enter runs `handle` synchronously), so the next qualifying event
runs `s1` and leaves `step = 2` — not 1 as the claim states. -/
theorem c6_counterexample :
    sget (scTwoAdv.enter ctxGo).1.sess "step" = some (SVal.num 1) ∧
    sget (scTwoAdv.handle ctxFeed).1.sess "step" = some (SVal.num 2) ∧
    sget (scTwoAdv.handle ctxFeed).1.sess "step" ≠ some (SVal.num 1) := by
  decide

/-- C6 (amended): for a scene `[s0, s1]` whose `s0` is a pure prompt step
with outcome `res0`, if the ENTERING context carries no truthy text (for
example entry from a button interaction), then `step` is 0 after `enter`;
one subsequent qualifying (truthy-text) event takes `step` from 0 to 1
when `s0` signals advance, and leaves `step` at 0 when `s0` returns the
explicit retry signal `false` — in which case `handle` will dispatch step
index 0, i.e. `s0`, again on the next qualifying event. -/
theorem c6_amended (name : String) (res0 : StepRes)
    (s1 : Ctx → Ctx × StepRes) (cE cF : Ctx)
    (hE : truthyText cE.text = false)
    (hF : cF.sess
      = (Scene.enter ⟨name, [fun c2 => (c2, res0), s1]⟩ cE).1.sess)
    (hFt : truthyText cF.text = true) :
    sget (Scene.enter ⟨name, [fun c2 => (c2, res0), s1]⟩ cE).1.sess "step"
      = some (SVal.num 0) ∧
    (res0 = StepRes.advance →
      sget (Scene.handle ⟨name, [fun c2 => (c2, res0), s1]⟩ cF).1.sess
        "step" = some (SVal.num 1)) ∧
    (res0 = StepRes.retry →
      sget (Scene.handle ⟨name, [fun c2 => (c2, res0), s1]⟩ cF).1.sess
        "step" = some (SVal.num 0)) := by
  have hsessE := enter_pure_first name res0 [s1] cE hE
  have hstepF : sget cF.sess "step" = some (SVal.num 0) := by
    rw [hF, hsessE]
    exact sget_sset_self _ _ _
  refine ⟨?_, ?_, ?_⟩
  · rw [hsessE]
    exact sget_sset_self _ _ _
  · intro h0
    rw [handle_pure_first name res0 [s1] cF hstepF,
      if_neg (fun h => by rw [h0] at h; exact StepRes.noConfusion h),
      if_pos ⟨hFt, h0⟩]
    exact sget_sset_self _ _ _
  · intro h0
    rw [handle_pure_first name res0 [s1] cF hstepF,
      if_neg (fun h => by rw [h0] at h; exact StepRes.noConfusion h),
      if_neg (fun h => by rw [h0] at h; exact StepRes.noConfusion h.2)]
    exact hstepF

/-- Entry context of the C6 witness: no text (e.g. a button press). -/
def ctxNoText : Ctx := ⟨none, [("k", SVal.bool true)], none, false, false⟩

/-- Feed context of the C6 witness for the advancing scene. -/
def ctxFeedAdv : Ctx := ⟨some "Alice",
  (Scene.enter ⟨"w", [fun c2 => (c2, StepRes.advance),
    fun c2 => (c2, StepRes.advance)]⟩ ctxNoText).1.sess, none, false,
  false⟩

/-- Feed context of the C6 witness for the retrying scene. -/
def ctxFeedRet : Ctx := ⟨some "Alice",
  (Scene.enter ⟨"w", [fun c2 => (c2, StepRes.retry),
    fun c2 => (c2, StepRes.advance)]⟩ ctxNoText).1.sess, none, false,
  false⟩

/-- Witness for C6 (amended) at concrete inputs: an advancing first step
takes `step` 0 to 1 on the qualifying feed; a retrying first step leaves
it at 0. -/
theorem c6_amended_witness :
    sget (Scene.handle ⟨"w", [fun c2 => (c2, StepRes.advance),
        fun c2 => (c2, StepRes.advance)]⟩ ctxFeedAdv).1.sess "step"
      = some (SVal.num 1) ∧
    sget (Scene.handle ⟨"w", [fun c2 => (c2, StepRes.retry),
        fun c2 => (c2, StepRes.advance)]⟩ ctxFeedRet).1.sess "step"
      = some (SVal.num 0) :=
  ⟨(c6_amended "w" StepRes.advance (fun c2 => (c2, StepRes.advance))
      ctxNoText ctxFeedAdv (by decide) rfl (by decide)).2.1 rfl,
   (c6_amended "w" StepRes.retry (fun c2 => (c2, StepRes.advance))
      ctxNoText ctxFeedRet (by decide) rfl (by decide)).2.2 rfl⟩

/-- The session invariant of claim C8: `__scene` and `step` are either
both present (scene active) or both absent (idle). -/
def sessInv (s : Session) : Bool :=
  (sget s "__scene").isSome == (sget s "step").isSome

/-- `Scene.handle` preserves the session invariant, provided every step
function of the scene preserves it (step functions are external user
code; this is the engine's own obligation). -/
theorem Scene.handle_inv (sc : Scene) (c : Ctx)
    (hsteps : ∀ f, f ∈ sc.steps → ∀ c2 : Ctx,
      sessInv c2.sess = true → sessInv ((f c2).1).sess = true)
    (hc : sessInv c.sess = true) : sessInv (sc.handle c).1.sess = true := by
  unfold Scene.handle
  cases hg : sc.steps.get? (stepIdx c.sess) with
  | none => rfl
  | some f =>
      have hmem : f ∈ sc.steps := List.get?_mem hg
      have hinv1 : sessInv ((f c).1).sess = true := hsteps f hmem c hc
      simp only [hg]
      split
      · exact hinv1
      · split
        · rename_i hcond
          obtain ⟨hstep, -, -⟩ := hcond
          unfold sessInv at hinv1 ⊢
          rw [sget_sset_self, sget_sset_ne _ _ _ _ (by decide)]
          rw [hstep] at hinv1
          simpa using hinv1
        · exact hinv1

/-- C8: every scene transition (`enter`, `handle`, `leave`) preserves the
invariant that the session has both `__scene` and `step` set or neither,
assuming each step function of the scene preserves it (steps are external
user code run inside `handle`). -/
theorem c8_invariant (sc : Scene) (c : Ctx)
    (hsteps : ∀ f, f ∈ sc.steps → ∀ c2 : Ctx,
      sessInv c2.sess = true → sessInv ((f c2).1).sess = true)
    (hc : sessInv c.sess = true) :
    sessInv (Scene.enter sc c).1.sess = true ∧
    sessInv (Scene.handle sc c).1.sess = true ∧
    sessInv (Scene.leave sc c).sess = true := by
  refine ⟨?_, Scene.handle_inv sc c hsteps hc, rfl⟩
  unfold Scene.enter
  apply Scene.handle_inv sc _ hsteps
  unfold sessInv
  rw [sget_sset_self, sget_sset_ne _ _ _ _ (by decide), sget_sset_self]
  rfl

/-- Scene used by the C8 witness: one step that touches nothing. -/
def scIdStep : Scene := ⟨"w", [fun c2 => (c2, StepRes.advance)]⟩

/-- Context used by the C8 witness: idle session with user data only. -/
def ctxUserData : Ctx := ⟨some "hi", [("name", SVal.str "a")], none,
  false, false⟩

/-- Witness for C8 at concrete inputs. -/
theorem c8_invariant_witness :
    sessInv (Scene.enter scIdStep ctxUserData).1.sess = true ∧
    sessInv (Scene.handle scIdStep ctxUserData).1.sess = true ∧
    sessInv (Scene.leave scIdStep ctxUserData).sess = true :=
  c8_invariant scIdStep ctxUserData
    (fun f hf c2 hc2 => by
      have : f = fun c3 => (c3, StepRes.advance) := by
        simpa [scIdStep] using hf
      rw [this]
      exact hc2)
    (by decide)
